import Mathlib

/-!
Shallow embedding of the ecosystem simulation in `src/pycode/mathmodel(2).py`:
the dynamics function `ecosystem_model`, the per-interval integration loop
driving an external ODE solver, and the derived series (total parasite
population and male fraction).  Real-valued quantities are embedded as `ℚ`
(every constant in the source is a finite decimal).  Python exceptions of the
loop become an `Except` error; the external solver (scipy's `odeint`) is a
parameter of the loop, instantiated where a concrete run is needed.
-/

/-- The sex-ratio branch of `ecosystem_model` (source line 22):
`male_ratio = 0.78 if resource_level < 0.5 else 0.56`. -/
def male_ratio (resource_level : ℚ) : ℚ :=
  if resource_level < 0.5 then 0.78 else 0.56

/-- Source line 23: `female_ratio = 1 - male_ratio`. -/
def female_ratio (resource_level : ℚ) : ℚ :=
  1 - male_ratio resource_level

/-- The dynamics function (source lines 16-44).  The Python body starts with
`m, f, h, p = state`, which raises unless `state` has exactly four entries;
that failure is `none`.  The time argument `t` is accepted (odeint passes it)
and never used, exactly as in the source. -/
def ecosystem_model (state : List ℚ) (t : ℚ) (resource_level : ℚ) :
    Option (List ℚ) :=
  match state with
  | [m, f, h, p] =>
    let eel_birth : ℚ := 0.8 * f
    let eel_death : ℚ := 0.1 * (m + f) + 0.02 * p * (m + f)
    let host_birth : ℚ := 0.5 * h
    let host_death : ℚ := 0.05 * h + 0.03 * (m + f) * h
    let predator_birth : ℚ := 0.04 * p * (m + f)
    let predator_death : ℚ := 0.2 * p
    let d_m : ℚ := male_ratio resource_level * eel_birth - eel_death
    let d_f : ℚ := female_ratio resource_level * eel_birth - eel_death
    let d_h : ℚ := host_birth - host_death
    let d_p : ℚ := predator_birth - predator_death
    some [d_m, d_f, d_h, d_p]
  | _ => none

/-- A Python exception escaping the integration loop (source lines 58-66):
`indexError i` is the out-of-range access `resource_levels[i]`, `stepError i`
is an exception raised inside the delegated solve of sub-interval `i` (for
instance the unpacking failure of a state without four entries). -/
inductive SimError where
  | indexError (i : Nat)
  | stepError (i : Nat)
deriving DecidableEq

/-- The integration loop (source lines 58-64), recursing over consecutive
pairs of time-grid points.  `step` is the external solver: given the current
state, the two endpoints `t[i], t[i+1]` and the frozen resource level
`resource_levels[i]`, it returns the state at the right endpoint (`res[-1]`),
or `none` when the solve raises.  Each new state is appended to the
trajectory and carried forward as the next initial condition. -/
def simLoop (step : List ℚ → ℚ → ℚ → ℚ → Option (List ℚ))
    (resource_levels : List ℚ) :
    Nat → List ℚ → List ℚ → Except SimError (List (List ℚ))
  | i, t0 :: t1 :: ts, current_state =>
    match resource_levels[i]? with
    | none => .error (.indexError i)
    | some r =>
      match step current_state t0 t1 r with
      | none => .error (.stepError i)
      | some next =>
        match simLoop step resource_levels (i + 1) (t1 :: ts) next with
        | .error e => .error e
        | .ok states => .ok (next :: states)
  | _, _, _ => .ok []

/-- The whole simulation (source lines 57-66): run the loop from index 0 with
the given time grid, forcing schedule and initial state. -/
def simulate (step : List ℚ → ℚ → ℚ → ℚ → Option (List ℚ))
    (t resource_levels initial_state : List ℚ) :
    Except SimError (List (List ℚ)) :=
  simLoop step resource_levels 0 t initial_state

/-- Modelled from the spec: the external black-box ODE solver (scipy's
`odeint`, not code of this repository) is abstracted as "solve the
initial-value problem over the sub-interval, given the right-hand side and the
initial condition, and return the state at the endpoint"; here it is
instantiated by one explicit Euler step, which satisfies that capability
interface.  An exception raised by the right-hand side propagates. -/
def odeint_step (y0 : List ℚ) (t0 t1 r : ℚ) : Option (List ℚ) :=
  (ecosystem_model y0 t0 r).map fun d =>
    List.zipWith (fun y dy => y + (t1 - t0) * dy) y0 d

/-- Modelled from the spec: numpy elementwise division (source line 86) with a
zero denominator yields a non-signalling sentinel (nan or inf), never an
exception; the sentinel is embedded as `none`. -/
def np_div (a b : ℚ) : Option ℚ :=
  if b = 0 then none else some (a / b)

/-- The derived male-fraction series (source line 86):
`states[:,0] / (states[:,0] + states[:,1])`. -/
def male_ratio_series (states : List (List ℚ)) : List (Option ℚ) :=
  states.map fun s => np_div (s[0]?.getD 0) (s[0]?.getD 0 + s[1]?.getD 0)

/-- The derived total-parasite series (source lines 128, 145):
`states[:,0] + states[:,1]`. -/
def total_series (states : List (List ℚ)) : List ℚ :=
  states.map fun s => s[0]?.getD 0 + s[1]?.getD 0

theorem simLoop_nil (step : List ℚ → ℚ → ℚ → ℚ → Option (List ℚ))
    (resource_levels : List ℚ) (i : Nat) (cur : List ℚ) :
    simLoop step resource_levels i [] cur = .ok [] :=
  rfl

theorem simLoop_single (step : List ℚ → ℚ → ℚ → ℚ → Option (List ℚ))
    (resource_levels : List ℚ) (i : Nat) (t0 : ℚ) (cur : List ℚ) :
    simLoop step resource_levels i [t0] cur = .ok [] :=
  rfl

theorem simLoop_cons (step : List ℚ → ℚ → ℚ → ℚ → Option (List ℚ))
    (resource_levels : List ℚ) (i : Nat) (t0 t1 : ℚ) (ts : List ℚ)
    (cur : List ℚ) :
    simLoop step resource_levels i (t0 :: t1 :: ts) cur =
      match resource_levels[i]? with
      | none => .error (.indexError i)
      | some r =>
        match step cur t0 t1 r with
        | none => .error (.stepError i)
        | some next =>
          match simLoop step resource_levels (i + 1) (t1 :: ts) next with
          | .error e => .error e
          | .ok states => .ok (next :: states) :=
  rfl

/-- When the solver never fails and the schedule covers every needed index,
the loop succeeds; the trajectory has one state per consecutive pair of grid
points, and entry `j` is the solver's output on the previous state (entry
`j` of the initial state consed onto the trajectory), the endpoints at
positions `j` and `j+1` of the remaining grid, and the level at schedule
index `i + j`. -/
theorem simLoop_ok (step : List ℚ → ℚ → ℚ → ℚ → Option (List ℚ))
    (resource_levels : List ℚ)
    (htot : ∀ y a b r, (step y a b r).isSome) :
    ∀ (tl : List ℚ) (i : Nat) (cur : List ℚ),
      tl.length + i ≤ resource_levels.length + 1 →
      ∃ states, simLoop step resource_levels i tl cur = .ok states ∧
        states.length = tl.length - 1 ∧
        ∀ j t0 t1 r prev, tl[j]? = some t0 → tl[j + 1]? = some t1 →
          resource_levels[i + j]? = some r → (cur :: states)[j]? = some prev →
          states[j]? = step prev t0 t1 r := by
  intro tl
  induction tl with
  | nil =>
    intro i cur _
    refine ⟨[], rfl, rfl, ?_⟩
    intro j t0 t1 r prev h1 _ _ _
    simp at h1
  | cons t0 rest ih =>
    intro i cur hlen
    cases rest with
    | nil =>
      refine ⟨[], rfl, rfl, ?_⟩
      intro j ta tb r prev h1 h2 _ _
      cases j with
      | zero => simp at h2
      | succ k => simp at h1
    | cons t1 ts =>
      have hi : i < resource_levels.length := by
        simp only [List.length_cons] at hlen
        omega
      have hr : resource_levels[i]? = some resource_levels[i] :=
        List.getElem?_eq_getElem hi
      obtain ⟨next, hnext⟩ :=
        Option.isSome_iff_exists.mp (htot cur t0 t1 resource_levels[i])
      obtain ⟨states, hok, hlen2, hidx⟩ := ih (i + 1) next (by
        simp only [List.length_cons] at hlen ⊢
        omega)
      refine ⟨next :: states, ?_, ?_, ?_⟩
      · rw [simLoop_cons]
        simp only [hr, hnext, hok]
      · simp only [List.length_cons] at hlen2 ⊢
        omega
      · intro j ta tb r prev h1 h2 h3 h4
        cases j with
        | zero =>
          simp only [List.getElem?_cons_zero, List.getElem?_cons_succ,
            Option.some.injEq] at h1 h2 h4
          rw [Nat.add_zero, hr, Option.some.injEq] at h3
          subst h1; subst h2; subst h3; subst h4
          simp [hnext]
        | succ k =>
          simp only [List.getElem?_cons_succ] at h1 h2 h4 ⊢
          have h3k : resource_levels[i + 1 + k]? = some r := by
            have hik : i + 1 + k = i + (k + 1) := by omega
            rw [hik]
            exact h3
          have h2k : (t1 :: ts)[k + 1]? = some tb := by
            rw [List.getElem?_cons_succ]
            exact h2
          exact hidx k ta tb r prev h1 h2k h3k h4

/-- Entry `j` of the trajectory depends on the schedule only through the
levels at indices `i` through `i + j`: two schedules that agree there give
loops producing the same entry. -/
theorem simLoop_agree (step : List ℚ → ℚ → ℚ → ℚ → Option (List ℚ))
    (rl1 rl2 : List ℚ) :
    ∀ (tl : List ℚ) (i : Nat) (cur : List ℚ) (j : Nat)
      (states1 states2 : List (List ℚ)),
      (∀ k, k ≤ j → rl1[i + k]? = rl2[i + k]?) →
      simLoop step rl1 i tl cur = .ok states1 →
      simLoop step rl2 i tl cur = .ok states2 →
      states1[j]? = states2[j]? := by
  intro tl
  induction tl with
  | nil =>
    intro i cur j s1 s2 _ h1 h2
    rw [simLoop_nil] at h1 h2
    cases h1; cases h2; rfl
  | cons t0 rest ih =>
    intro i cur j s1 s2 hagree h1 h2
    cases rest with
    | nil =>
      rw [simLoop_single] at h1 h2
      cases h1; cases h2; rfl
    | cons t1 ts =>
      rw [simLoop_cons] at h1 h2
      have h0 : rl1[i]? = rl2[i]? := by
        have := hagree 0 (Nat.zero_le j)
        simpa using this
      cases hr1 : rl1[i]? with
      | none => simp [hr1] at h1
      | some r =>
        simp only [hr1] at h1
        rw [← h0] at h2
        simp only [hr1] at h2
        cases hst : step cur t0 t1 r with
        | none => simp [hst] at h1
        | some next =>
          simp only [hst] at h1 h2
          cases hrec1 : simLoop step rl1 (i + 1) (t1 :: ts) next with
          | error e => simp [hrec1] at h1
          | ok s1' =>
            cases hrec2 : simLoop step rl2 (i + 1) (t1 :: ts) next with
            | error e => simp [hrec2] at h2
            | ok s2' =>
              simp only [hrec1, Except.ok.injEq] at h1
              simp only [hrec2, Except.ok.injEq] at h2
              subst h1; subst h2
              cases j with
              | zero => simp
              | succ k =>
                simp only [List.getElem?_cons_succ]
                refine ih (i + 1) next k s1' s2' ?_ hrec1 hrec2
                intro m hm
                have him : i + 1 + m = i + (m + 1) := by omega
                rw [him]
                exact hagree (m + 1) (by omega)

/-- C1: for every state vector and every forcing regime, the parasite birth
flux is `0.8 * f`, split into the male and female rate components by the
current sex-allocation fractions, and the combined death term
`0.1*(m+f) + 0.02*p*(m+f)` is subtracted identically from both components. -/
theorem C1_parasite_birth_and_death (m f h p t r : ℚ) :
    ∃ d_h d_p, ecosystem_model [m, f, h, p] t r =
      some [male_ratio r * (0.8 * f) - (0.1 * (m + f) + 0.02 * p * (m + f)),
            female_ratio r * (0.8 * f) - (0.1 * (m + f) + 0.02 * p * (m + f)),
            d_h, d_p] :=
  ⟨_, _, rfl⟩

/-- C2: the sex-allocation fractions are a step function of the forcing regime
alone: 78% male / 22% female at the scarce regime (value 0) and
56% male / 44% female at the abundant regime (value 1). -/
theorem C2_sex_allocation_step_function :
    male_ratio 0 = 0.78 ∧ female_ratio 0 = 0.22 ∧
    male_ratio 1 = 0.56 ∧ female_ratio 1 = 0.44 := by
  norm_num [male_ratio, female_ratio]

/-- C3: for every state vector and every forcing regime, the host rate equals
`0.5*h - (0.05*h + 0.03*(m+f)*h)`, the predator rate equals
`0.04*p*(m+f) - 0.2*p`, and the four rates are returned in the order
`[d_males, d_females, d_host, d_predator]` matching the state ordering. -/
theorem C3_host_predator_and_order (m f h p t r : ℚ) :
    ecosystem_model [m, f, h, p] t r =
      some [male_ratio r * (0.8 * f) - (0.1 * (m + f) + 0.02 * p * (m + f)),
            female_ratio r * (0.8 * f) - (0.1 * (m + f) + 0.02 * p * (m + f)),
            0.5 * h - (0.05 * h + 0.03 * (m + f) * h),
            0.04 * p * (m + f) - 0.2 * p] :=
  rfl

/-- C5: at the state `[10, 10, 100, 5]` under the scarce regime the male rate
is exactly `0.78*0.8*10 - (0.1*20 + 0.02*5*20) = 2.24` (the remaining rates
evaluate to `-2.24`, `-15` and `3`). -/
theorem C5_male_rate_at_test_vector :
    ecosystem_model [10, 10, 100, 5] 0 0 = some [2.24, -2.24, -15, 3] ∧
    (2.24 : ℚ) = 0.78 * 0.8 * 10 - (0.1 * 20 + 0.02 * 5 * 20) := by
  constructor
  · norm_num [ecosystem_model, male_ratio, female_ratio]
  · norm_num

/-- C9: the dynamics function is a deterministic, side-effect-free map of
(state, regime) only: its value does not depend on the time argument. -/
theorem C9_time_argument_irrelevant (state : List ℚ) (t1 t2 r : ℚ) :
    ecosystem_model state t1 r = ecosystem_model state t2 r :=
  rfl

/-- C10: the two sex-allocation fractions sum exactly to 1, so the birth flux
is fully allocated: the male and female rate components sum to
`0.8*f - 2*(0.1*(m+f) + 0.02*p*(m+f))`. -/
theorem C10_birth_flux_fully_allocated (m f h p t r : ℚ) :
    male_ratio r + female_ratio r = 1 ∧
    ∃ d_m d_f d_h d_p, ecosystem_model [m, f, h, p] t r =
        some [d_m, d_f, d_h, d_p] ∧
      d_m + d_f = 0.8 * f - 2 * (0.1 * (m + f) + 0.02 * p * (m + f)) := by
  refine ⟨by simp [female_ratio], _, _, _, _, rfl, ?_⟩
  simp only [female_ratio]
  ring

/-- C4: for every time grid of length at least 2, matching-length schedules
and any initial state, a never-failing solver yields a trajectory of exactly
`N - 1` states; the state for grid point `j+1` is the solver's output on the
previous sub-interval's result over `[t[j], t[j+1]]` with the level frozen at
schedule index `j`; and changing the schedule only at index `i + 1` does not
affect the state produced for grid point `i + 1` (hold-last-value policy). -/
theorem C4_integrator_contract
    (step : List ℚ → ℚ → ℚ → ℚ → Option (List ℚ))
    (t resource_levels resource_levels2 initial_state : List ℚ) (i : Nat)
    (hN : 2 ≤ t.length)
    (hlen : resource_levels.length = t.length)
    (hlen2 : resource_levels2.length = t.length)
    (htot : ∀ y a b r, (step y a b r).isSome)
    (hagree : ∀ k, k ≠ i + 1 → resource_levels[k]? = resource_levels2[k]?) :
    ∃ states states2,
      simulate step t resource_levels initial_state = .ok states ∧
      simulate step t resource_levels2 initial_state = .ok states2 ∧
      states.length = t.length - 1 ∧
      (∀ j t0 t1 r prev, t[j]? = some t0 → t[j + 1]? = some t1 →
        resource_levels[j]? = some r →
        (initial_state :: states)[j]? = some prev →
        states[j]? = step prev t0 t1 r) ∧
      states[i]? = states2[i]? := by
  obtain ⟨states, hok, hlen', hidx⟩ :=
    simLoop_ok step resource_levels htot t 0 initial_state (by omega)
  obtain ⟨states2, hok2, _, _⟩ :=
    simLoop_ok step resource_levels2 htot t 0 initial_state (by omega)
  refine ⟨states, states2, hok, hok2, hlen', ?_, ?_⟩
  · intro j t0 t1 r prev h1 h2 h3 h4
    refine hidx j t0 t1 r prev h1 h2 ?_ h4
    rw [Nat.zero_add]
    exact h3
  · refine simLoop_agree step resource_levels resource_levels2 t 0
      initial_state i states states2 ?_ hok hok2
    intro k hk
    rw [Nat.zero_add]
    exact hagree k (by omega)

/-- Witness for C4 at the identity solver, the grid `[0, 1]`, the schedules
`[0, 0]` and `[0, 1]` (differing only at index 1), the initial state
`[1, 2, 3, 4]` and transition index 0. -/
theorem C4_integrator_contract_witness :
    ∃ states states2,
      simulate (fun y _ _ _ => some y) [(0 : ℚ), 1] [0, 0] [1, 2, 3, 4] =
        .ok states ∧
      simulate (fun y _ _ _ => some y) [(0 : ℚ), 1] [0, 1] [1, 2, 3, 4] =
        .ok states2 ∧
      states.length = 1 ∧
      (∀ j t0 t1 r prev, ([(0 : ℚ), 1] : List ℚ)[j]? = some t0 →
        ([(0 : ℚ), 1] : List ℚ)[j + 1]? = some t1 →
        ([(0 : ℚ), 0] : List ℚ)[j]? = some r →
        (([1, 2, 3, 4] : List ℚ) :: states)[j]? = some prev →
        states[j]? = some prev) ∧
      states[0]? = states2[0]? :=
  C4_integrator_contract (fun y _ _ _ => some y) [0, 1] [0, 0] [0, 1]
    [1, 2, 3, 4] 0 (by norm_num) (by norm_num) (by norm_num)
    (fun y a b r => rfl)
    (by
      intro k hk
      match k with
      | 0 => rfl
      | 1 => exact absurd rfl hk
      | n + 2 => rfl)

/-- A state without exactly four entries makes the unpacking
`m, f, h, p = state` in the dynamics function raise. -/
theorem ecosystem_model_wrong_shape (s : List ℚ) (t r : ℚ)
    (h : s.length ≠ 4) : ecosystem_model s t r = none := by
  match s with
  | [] => rfl
  | [a] => rfl
  | [a, b] => rfl
  | [a, b, c] => rfl
  | [a, b, c, d] => exact absurd rfl h
  | a :: b :: c :: d :: e :: tl => rfl

/-- On a four-entry state the modelled solver succeeds and returns a
four-entry state. -/
theorem odeint_step_ok (s : List ℚ) (t0 t1 r : ℚ) (h : s.length = 4) :
    ∃ s2, odeint_step s t0 t1 r = some s2 ∧ s2.length = 4 := by
  match s with
  | [a, b, c, d] => exact ⟨_, rfl, rfl⟩
  | [] => simp at h
  | [a] => simp at h
  | [a, b] => simp at h
  | [a, b, c] => simp at h
  | a :: b :: c :: d :: e :: tl => simp at h

/-- A schedule that runs out at index `rl.length` (strictly before the last
needed index) makes the loop fail there with the out-of-range access, after
the earlier sub-intervals were integrated. -/
theorem simLoop_index_error (rl : List ℚ) :
    ∀ (tl : List ℚ) (i : Nat) (cur : List ℚ),
      cur.length = 4 → i ≤ rl.length → rl.length + 1 < i + tl.length →
      simLoop odeint_step rl i tl cur = .error (.indexError rl.length) := by
  intro tl
  induction tl with
  | nil =>
    intro i cur _ hle hlt
    simp at hlt
    omega
  | cons t0 rest ih =>
    intro i cur hcur hle hlt
    cases rest with
    | nil =>
      simp at hlt
      omega
    | cons t1 ts =>
      rcases Nat.lt_or_ge i rl.length with hi | hi
      · have hr : rl[i]? = some rl[i] := List.getElem?_eq_getElem hi
        obtain ⟨next, hnext, hnext4⟩ := odeint_step_ok cur t0 t1 rl[i] hcur
        have hrec := ih (i + 1) next hnext4 (by omega) (by
          simp only [List.length_cons] at hlt ⊢
          omega)
        rw [simLoop_cons]
        simp only [hr, hnext, hrec]
      · have hieq : i = rl.length := by omega
        have hnone : rl[i]? = none := by
          rw [List.getElem?_eq_none]
          omega
        rw [simLoop_cons]
        simp only [hnone]
        rw [hieq]

/-- C6 counterexample: the strictly decreasing time grid `[1, 0]` (with a
matching-length schedule and a four-entry state) is not rejected — the run
completes normally with no error of any kind, refuting "a non-increasing time
grid raises InvalidInputShape before any integration work occurs". -/
theorem C6_counterexample_no_validation :
    ∃ states,
      simulate odeint_step [1, 0] [0, 0] [78, 22, 1000, 50] = .ok states :=
  ⟨_, rfl⟩

/-- C6 as amended: the loop performs no input validation.  A schedule shorter
than the `N - 1` needed values fails with the out-of-range index access at
position `resource_levels.length`, during the loop (after the earlier
sub-intervals were integrated), not before; a state vector without exactly
four entries fails inside the first delegated solve (the unpacking in the
dynamics function), not before integration; and a decreasing two-point grid
is integrated without any error. -/
theorem C6_amended_no_shape_check :
    (∀ (t resource_levels initial_state : List ℚ),
      initial_state.length = 4 →
      resource_levels.length + 1 < t.length →
      simulate odeint_step t resource_levels initial_state =
        .error (.indexError resource_levels.length)) ∧
    (∀ (t0 t1 : ℚ) (ts : List ℚ) (r : ℚ) (rl initial_state : List ℚ),
      initial_state.length ≠ 4 →
      simulate odeint_step (t0 :: t1 :: ts) (r :: rl) initial_state =
        .error (.stepError 0)) ∧
    (∀ (t0 t1 r : ℚ) (rl initial_state : List ℚ),
      t1 < t0 → initial_state.length = 4 →
      ∃ states,
        simulate odeint_step [t0, t1] (r :: rl) initial_state = .ok states ∧
        states.length = 1) := by
  refine ⟨?_, ?_, ?_⟩
  · intro t resource_levels initial_state h4 hlt
    exact simLoop_index_error resource_levels t 0 initial_state h4
      (Nat.zero_le _) (by omega)
  · intro t0 t1 ts r rl initial_state h4
    have hdyn : ecosystem_model initial_state t0 r = none :=
      ecosystem_model_wrong_shape initial_state t0 r h4
    have hstep : odeint_step initial_state t0 t1 r = none := by
      simp [odeint_step, hdyn]
    show simLoop odeint_step (r :: rl) 0 (t0 :: t1 :: ts) initial_state = _
    rw [simLoop_cons]
    simp [hstep]
  · intro t0 t1 r rl initial_state _ h4
    obtain ⟨next, hnext, _⟩ := odeint_step_ok initial_state t0 t1 r h4
    refine ⟨[next], ?_, rfl⟩
    show simLoop odeint_step (r :: rl) 0 [t0, t1] initial_state = _
    rw [simLoop_cons]
    simp [hnext, simLoop_single]

/-- Witness for the amended C6: a two-value schedule against a four-point
grid fails at index 2 after two integrated sub-intervals; a three-entry state
fails inside the first solve; the decreasing grid `[1, 0]` is accepted. -/
theorem C6_amended_no_shape_check_witness :
    simulate odeint_step [(0 : ℚ), 1, 2, 3] [0, 1] [1, 2, 3, 4] =
      .error (.indexError 2) ∧
    simulate odeint_step [(0 : ℚ), 1] [(0 : ℚ)] [1, 2, 3] =
      .error (.stepError 0) ∧
    (∃ states,
      simulate odeint_step [(1 : ℚ), 0] [(0 : ℚ)] [1, 2, 3, 4] =
        .ok states ∧ states.length = 1) :=
  ⟨C6_amended_no_shape_check.1 [0, 1, 2, 3] [0, 1] [1, 2, 3, 4] rfl
      (by norm_num),
   C6_amended_no_shape_check.2.1 0 1 [] 0 [] [1, 2, 3] (by norm_num),
   C6_amended_no_shape_check.2.2 1 0 0 [] [1, 2, 3, 4] (by norm_num) rfl⟩

/-- C7: at every trajectory point whose total parasite population is zero the
male-fraction series carries the sentinel (no numeric exception is raised —
the series is total), while the total-population series is defined there and
both derived series are defined at every point of the trajectory. -/
theorem C7_degenerate_ratio_sentinel (states : List (List ℚ)) (j : Nat)
    (s : List ℚ) (hs : states[j]? = some s)
    (hz : s[0]?.getD 0 + s[1]?.getD 0 = 0) :
    (male_ratio_series states)[j]? = some none ∧
    (total_series states)[j]? = some 0 ∧
    (male_ratio_series states).length = states.length ∧
    (total_series states).length = states.length := by
  refine ⟨?_, ?_, by simp [male_ratio_series], by simp [total_series]⟩
  · simp only [male_ratio_series, List.getElem?_map, hs, Option.map_some']
    simp [np_div, hz]
  · simp only [total_series, List.getElem?_map, hs, Option.map_some']
    simp [hz]

/-- Witness for C7 at the one-point trajectory `[[0, 0, 5, 7]]`. -/
theorem C7_degenerate_ratio_sentinel_witness :
    (male_ratio_series [[0, 0, 5, 7]])[0]? = some none ∧
    (total_series [[0, 0, 5, 7]])[0]? = some 0 ∧
    (male_ratio_series [[0, 0, 5, 7]]).length = 1 ∧
    (total_series [[0, 0, 5, 7]]).length = 1 :=
  C7_degenerate_ratio_sentinel [[0, 0, 5, 7]] 0 [0, 0, 5, 7] rfl (by norm_num)

/-- C8: from the identical initial state `[78, 22, 1000, 50]` over the grid
`[0, 1]`, holding the forcing at scarce produces a strictly different
trajectory than holding it at abundant: the sex-allocation branch is wired
into the dynamics. -/
theorem C8_regime_branch_wired_in :
    simulate odeint_step [0, 1] [0, 0] [78, 22, 1000, 50] =
      .ok [[-18.272, -84.128, -1550, 240]] ∧
    simulate odeint_step [0, 1] [1, 1] [78, 22, 1000, 50] =
      .ok [[-22.144, -80.256, -1550, 240]] ∧
    ([[-18.272, -84.128, -1550, 240]] : List (List ℚ)) ≠
      [[-22.144, -80.256, -1550, 240]] := by
  refine ⟨?_, ?_, by norm_num⟩
  · norm_num [simulate, simLoop, odeint_step, ecosystem_model, male_ratio,
      female_ratio]
  · norm_num [simulate, simLoop, odeint_step, ecosystem_model, male_ratio,
      female_ratio]
